import Mathlib

/-!
Verification of the StickerLine_Demo sticker-sheet pipeline.

The repository source under `src/` contains the application shell
(`src/App.tsx`) and the caption/generation service
(`src/services/geminiService.ts`).  The image-processing core
(`ChromaKeyExtractor` / `GridSlicer` / `GridComposer`, imported by the
application from `./utils/imageProcessor`) is not part of the provided
source; where a claim is decided by that core it is modelled from the
specification, and the corresponding definitions say so in their doc
comments.

Machine integers of the source are modelled as `Nat`/`Int`; pixel
channels are unsigned bytes, so a well-formedness predicate restricts
them to `≤ 255` where it matters.  Fallible operations return `Except`.
-/

/-- A 4-channel pixel (red, green, blue, alpha), each channel an
unsigned 8-bit value modelled as `Nat`. -/
structure Pixel where
  r : Nat
  g : Nat
  b : Nat
  a : Nat
deriving DecidableEq, Repr, Inhabited

/-- A raster image: integer width and height and a row-major contiguous
pixel buffer (`data.length = width * height` when well-formed). -/
structure RasterImage where
  width : Nat
  height : Nat
  data : List Pixel
deriving DecidableEq, Repr, Inhabited

/-- Buffer invariant of `RasterImage`: one pixel per coordinate. -/
def RasterImage.wellFormed (img : RasterImage) : Prop :=
  img.data.length = img.width * img.height

instance (img : RasterImage) : Decidable img.wellFormed := by
  unfold RasterImage.wellFormed; infer_instance

/-- Row-major pixel access: pixel at column `x`, row `y`. -/
def RasterImage.getPixel (img : RasterImage) (x y : Nat) : Pixel :=
  img.data.getD (y * img.width + x) default

/-- An immutable (columns, rows) grid description. -/
structure GridLayout where
  columns : Nat
  rows : Nat
deriving DecidableEq, Repr

/-- The error kinds of the core (spec section 7). -/
inductive CoreError where
  | dimensionError
  | shapeMismatchError
  | decodeError
deriving DecidableEq, Repr

namespace ImageProcessor

/-- A `StickerSlot` of the core (spec section 3): a `RasterImage` paired with
its original row-major cell index. -/
structure StickerSlot where
  image : RasterImage
  originalIndex : Nat
deriving DecidableEq, Repr

/-- Modelled from the spec: one copied cell of `GridSlicer.slice`
(spec section 4.2) — cell `k` sits at row `k / columns`, column
`k % columns`, and its pixel region is copied (not referenced) into its own
`RasterImage` of size `(width / columns, height / rows)`. -/
def sliceCell (image : RasterImage) (layout : GridLayout) (k : Nat) :
    RasterImage :=
  let cellW := image.width / layout.columns
  let cellH := image.height / layout.rows
  { width := cellW
    height := cellH
    data := (List.range (cellW * cellH)).map fun j =>
      image.getPixel ((k % layout.columns) * cellW + j % cellW)
        ((k / layout.columns) * cellH + j / cellW) }

/-- Modelled from the spec: the success value of `GridSlicer.slice` — the
row-major sequence of copied cells, each paired with its original index. -/
def sliceResult (image : RasterImage) (layout : GridLayout) :
    List StickerSlot :=
  (List.range (layout.rows * layout.columns)).map fun k =>
    { image := sliceCell image layout k, originalIndex := k }

/-- Modelled from the spec: `GridSlicer.slice` (spec section 4.2); its
implementation (`src/utils/imageProcessor`, imported by `src/App.tsx`) is not
among the provided source files.  Fails with `DimensionError` unless the image
width is evenly divisible by `layout.columns` and the height by `layout.rows`;
otherwise the cells are produced in row-major order
(`index = row * columns + column`, zero-based) and slicing never pads or
fabricates missing slots. -/
def slice (image : RasterImage) (layout : GridLayout) :
    Except CoreError (List StickerSlot) :=
  if image.width % layout.columns != 0 || image.height % layout.rows != 0 then
    .error .dimensionError
  else
    .ok (sliceResult image layout)

/-- Modelled from the spec: the uniformity check of `GridComposer.compose`
(spec section 4.3) — all slots share one width and one height. -/
def uniformDims (slots : List RasterImage) : Bool :=
  slots.all fun s =>
    s.width == (slots.headD default).width &&
      s.height == (slots.headD default).height

/-- Modelled from the spec: the composed sheet built by
`GridComposer.compose` (spec section 4.3) — an output buffer of size
`(cellW * columns, cellH * rows)` where slot `row * columns + column` is
copied into the cell at `(column * cellW, row * cellH)`, a pure placement
with no blending. -/
def composedImage (slots : List RasterImage) (layout : GridLayout) :
    RasterImage :=
  let cellW := (slots.headD default).width
  let cellH := (slots.headD default).height
  let w := cellW * layout.columns
  let h := cellH * layout.rows
  { width := w
    height := h
    data := (List.range (w * h)).map fun idx =>
      let x := idx % w
      let y := idx / w
      (slots.getD ((y / cellH) * layout.columns + x / cellW) default).getPixel
        (x % cellW) (y % cellH) }

/-- Modelled from the spec: `GridComposer.compose` (spec section 4.3); its
implementation (`src/utils/imageProcessor`) is not among the provided source
files.  Checks the slot count and the per-slot dimensions before any pixel
work; on failure no output is produced. -/
def compose (slots : List RasterImage) (layout : GridLayout) :
    Except CoreError RasterImage :=
  if slots.length != layout.columns * layout.rows then
    .error .shapeMismatchError
  else if !uniformDims slots then
    .error .shapeMismatchError
  else
    .ok (composedImage slots layout)

/-- Modelled from the spec: the chroma-key color distance of
`ChromaKeyExtractor` (spec section 4.1) — a perceptually weighted Euclidean
distance from the reference key color, pure green `(0, 255, 0)`, kept squared
so it stays integral; green is weighted lower (1) than red and blue (2) as the
spec prescribes. -/
def dist2 (p : Pixel) : Int :=
  2 * (p.r : Int) ^ 2 + ((p.g : Int) - 255) ^ 2 + 2 * (p.b : Int) ^ 2

/-- Modelled from the spec: the inner tolerance threshold (squared);
`aggressive = true` widens it (spec section 4.1). -/
def innerThreshold2 (aggressive : Bool) : Int :=
  if aggressive then 8100 else 3600

/-- Modelled from the spec: the outer tolerance threshold (squared);
`aggressive = true` widens it (spec section 4.1). -/
def outerThreshold2 (aggressive : Bool) : Int :=
  if aggressive then 25600 else 14400

/-- Modelled from the spec: per-pixel classification of `ChromaKeyExtractor`
(spec section 4.1).  Distance below the inner threshold gives alpha 0;
above the outer threshold gives alpha 255 with the color unchanged; in the
soft band the alpha is linearly interpolated and the green channel is
desaturated toward the average of red and blue (spill suppression, applied
only to pixels that are not fully opaque). -/
def extractPixel (aggressive : Bool) (p : Pixel) : Pixel :=
  let d2 := dist2 p
  if d2 ≤ innerThreshold2 aggressive then
    { p with a := 0 }
  else if outerThreshold2 aggressive ≤ d2 then
    { p with a := 255 }
  else
    { r := p.r
      g := (p.g + (p.r + p.b) / 2) / 2
      b := p.b
      a := (255 * (d2 - innerThreshold2 aggressive) /
        (outerThreshold2 aggressive - innerThreshold2 aggressive)).toNat }

/-- Modelled from the spec: `ChromaKeyExtractor.extract` (spec section 4.1);
its implementation (`src/utils/imageProcessor`) is not among the provided
source files.  Same width and height as the input; the alpha channel is fully
recomputed per pixel.  It never fails: with no key color present it returns a
fully opaque image with colors unchanged. -/
def extract (image : RasterImage) (aggressive : Bool) : RasterImage :=
  { image with data := image.data.map (extractPixel aggressive) }

/-- A pixel classified as background: the recomputed alpha is 0. -/
def isBackground (aggressive : Bool) (p : Pixel) : Bool :=
  (extractPixel aggressive p).a == 0

/-- The number of pixels of `image` classified as background. -/
def backgroundCount (image : RasterImage) (aggressive : Bool) : Nat :=
  (image.data.filter (isBackground aggressive)).length

end ImageProcessor

namespace GeminiService

/-- The fixed default caption list of
`GeminiService.generateStickerCaptions` (src/services/geminiService.ts,
lines 46 and 60 — both occurrences are the same 16 strings). -/
def defaultCaptions : List String :=
  ["หวัดดีจ้า", "ขอบคุณนะ", "โอเคเลย", "สู้ๆ นะ", "ขอโทษที", "เย้ๆๆ", "ยุ่งมาก", "รักน้าา",
   "งอนแล้ว", "ตกใจเลย", "คิดแป๊บ", "ฝันดีนะ", "ทำงานอยู่", "หิวมาก", "รอแป๊บ", "บายจ้า"]

/-- One element of a parsed JSON array: a string, or a value of any other
JSON type (which `parsed.filter((item): item is string => ...)` drops). -/
inductive JsonItem where
  | str (s : String)
  | other
deriving DecidableEq, Repr

/-- The observable outcome of the caption-model call in
`generateStickerCaptions` (src/services/geminiService.ts, lines 33-50):
the API call may throw; `response.text` may be empty or missing
(`if (!text)`); `JSON.parse(text)` may throw (caught by the surrounding
`try`); the parsed JSON may not be an array; or it is an array of items. -/
inductive CaptionOutcome where
  | apiThrown
  | emptyText
  | invalidJson
  | jsonNonArray
  | jsonArray (items : List JsonItem)
deriving Repr

/-- `GeminiService.generateStickerCaptions`
(src/services/geminiService.ts, lines 14-62), as a function of the theme and
of the outcome of the model call: string items are kept, trimmed, filtered to
non-empty, truncated to 16 (`slice(0, 16)`); a short list is padded from
`defaultCaptions.slice(sanitized.length, 16)`; every thrown error and every
non-array/empty outcome yields the default list. -/
def generateStickerCaptions (theme : String) (outcome : CaptionOutcome) :
    List String :=
  match outcome with
  | .apiThrown => defaultCaptions
  | .emptyText => defaultCaptions
  | .invalidJson => defaultCaptions
  | .jsonNonArray => defaultCaptions
  | .jsonArray items =>
      let strings := items.filterMap fun item =>
        match item with
        | .str s => some s
        | .other => none
      let sanitized :=
        (((strings.map fun item => item.trim).filter
          fun item => item.length > 0).take 16)
      if sanitized.length = 16 then sanitized
      else sanitized ++ defaultCaptions.drop sanitized.length

end GeminiService

namespace App

/-- `STICKER_COLUMNS` (src/App.tsx, line 13). -/
def STICKER_COLUMNS : Nat := 4

/-- `STICKER_ROWS` (src/App.tsx, line 14). -/
def STICKER_ROWS : Nat := 4

/-- `TOTAL_STICKERS` (src/App.tsx, line 15). -/
def TOTAL_STICKERS : Nat := STICKER_COLUMNS * STICKER_ROWS

/-- The UI slot record `StickerSlot` (src/App.tsx, lines 17-21): an id, a
data-url of the sticker image, and the caller-side lock flag. -/
structure StickerSlot where
  id : String
  url : String
  locked : Bool
deriving DecidableEq, Repr, Inhabited

/-- The slot id built in `generateSheet` (src/App.tsx, lines 178 and 181):
the timestamp and the index joined by a dash. -/
def mkId (now index : Nat) : String :=
  toString now ++ "-" ++ toString index

/-- The merge of `generateSheet` (src/App.tsx, lines 173-184): with a
reusable prior set, locked slots are kept as they are and unlocked ones get
the freshly sliced url at the same index; otherwise the first
`TOTAL_STICKERS` fresh urls become new unlocked slots. -/
def mergeSlots (now : Nat) (canReuseExisting : Bool)
    (stickerSlots : List StickerSlot) (regeneratedStickers : List String) :
    List StickerSlot :=
  if canReuseExisting then
    stickerSlots.mapIdx fun index slot =>
      if slot.locked then slot
      else { slot with url := regeneratedStickers.getD index ""
                       id := mkId now index }
  else
    (regeneratedStickers.take TOTAL_STICKERS).mapIdx fun index url =>
      { id := mkId now index, url := url, locked := false }

/-- The error message of the offline guard (src/App.tsx, line 135). -/
def offlineMsg : String :=
  "You are offline. Please connect to the internet and try again."

/-- The error message of the missing-upload guard (src/App.tsx, line 140). -/
def uploadFirstMsg : String := "Please upload a source image first."

/-- The error message of the all-locked guard (src/App.tsx, line 150). -/
def lockedAllMsg : String :=
  "เลือกอย่างน้อย 1 สติ๊กเกอร์ที่ยังไม่ล็อกก่อนกด Regenerate"

/-- The error message thrown for an incomplete sliced sheet
(src/App.tsx, line 170). -/
def incompleteMsg : String := "Generated sheet is incomplete. Please try again."

/-- The observable outcome of one `generateSheet` run (src/App.tsx,
lines 133-214): the error message shown (if any), whether the loading state
was entered, how many times the generation service was invoked, the
arguments of the calls to `processTransparentSheet`, `splitStickerSheet` and
`composeStickerSheet` (none when not reached), and the state updates
(`setStickerSlots`, `setTransparentImageUrl`, `setHasGenerated`). -/
structure GenerateOutcome where
  error : Option String
  enteredLoading : Bool
  serviceCalls : Nat
  extractCall : Option (String × Bool)
  splitCall : Option String
  composeCall : Option (List String × Nat × Nat)
  newSlots : Option (List StickerSlot)
  newSheetUrl : Option String
  hasGeneratedSet : Bool
deriving DecidableEq, Repr

/-- The outcome of a guard rejection in `generateSheet` (src/App.tsx,
lines 134-152): an error message is set and the function returns before
`setLoading(true)` and before any service call. -/
def rejected (msg : String) : GenerateOutcome :=
  { error := some msg, enteredLoading := false, serviceCalls := 0
    extractCall := none, splitCall := none, composeCall := none
    newSlots := none, newSheetUrl := none, hasGeneratedSet := false }

/-- `generateSheet` (src/App.tsx, lines 133-214) over its inputs: the online
flag, the uploaded image, the current slots, the result of
`generateStickerSheet` (`.error` when the awaited call throws), and the
external image-processing collaborators
(`processTransparentSheet`, `splitStickerSheet`, `composeStickerSheet` of
`./utils/imageProcessor`, not among the provided source files) as opaque
functions whose calls are recorded.  A thrown error is caught by the
`catch` block, which sets the error message and performs no state update. -/
def generateSheet (isOnline : Bool) (base64Image : String)
    (stickerSlots : List StickerSlot)
    (serviceResult : Except String String)
    (processTransparentSheet : String → Bool → String)
    (splitStickerSheet : String → Nat → Nat → List String)
    (composeStickerSheet : List String → Nat → Nat → String)
    (now : Nat) : GenerateOutcome :=
  if !isOnline then rejected offlineMsg
  else if base64Image = "" then rejected uploadFirstMsg
  else
    let canReuseExisting := stickerSlots.length == TOTAL_STICKERS
    let unlockedCount :=
      if canReuseExisting then
        (stickerSlots.filter fun slot => !slot.locked).length
      else TOTAL_STICKERS
    if canReuseExisting && unlockedCount == 0 then rejected lockedAllMsg
    else
      match serviceResult with
      | .error e =>
          { error := some e, enteredLoading := true, serviceCalls := 1
            extractCall := none, splitCall := none, composeCall := none
            newSlots := none, newSheetUrl := none, hasGeneratedSet := false }
      | .ok stickerSheetUrl =>
          let processedUrl := processTransparentSheet stickerSheetUrl true
          let regeneratedStickers :=
            splitStickerSheet processedUrl STICKER_COLUMNS STICKER_ROWS
          if regeneratedStickers.length < TOTAL_STICKERS then
            { error := some incompleteMsg, enteredLoading := true
              serviceCalls := 1, extractCall := some (stickerSheetUrl, true)
              splitCall := some processedUrl, composeCall := none
              newSlots := none, newSheetUrl := none, hasGeneratedSet := false }
          else
            let mergedSlots :=
              mergeSlots now canReuseExisting stickerSlots regeneratedStickers
            let composedSheetUrl :=
              composeStickerSheet (mergedSlots.map (·.url))
                STICKER_COLUMNS STICKER_ROWS
            { error := none, enteredLoading := true, serviceCalls := 1
              extractCall := some (stickerSheetUrl, true)
              splitCall := some processedUrl
              composeCall :=
                some (mergedSlots.map (·.url), STICKER_COLUMNS, STICKER_ROWS)
              newSlots := some mergedSlots
              newSheetUrl := some composedSheetUrl
              hasGeneratedSet := true }

/-- The `disabled` condition of the generate button (src/App.tsx,
lines 467-472), with `lockedCount` as computed at line 245. -/
def generateButtonDisabled (loading : Bool) (base64Image : String)
    (isOnline hasGenerated : Bool) (stickerSlots : List StickerSlot) : Bool :=
  loading || base64Image == "" || !isOnline ||
    (hasGenerated && stickerSlots.length == TOTAL_STICKERS &&
      (stickerSlots.filter fun slot => slot.locked).length == TOTAL_STICKERS)

end App

section ConcreteInputs

/-- A 2x2 sheet of four distinct pixels, used to exercise the slicer and
composer on a concrete input. -/
def wSheet : RasterImage :=
  ⟨2, 2, [⟨1, 2, 3, 4⟩, ⟨5, 6, 7, 8⟩, ⟨9, 10, 11, 12⟩, ⟨13, 14, 15, 16⟩]⟩

/-- A 2x2 grid layout for `wSheet`. -/
def wLayout : GridLayout := ⟨2, 2⟩

/-- A 1x1 image whose only pixel `(50, 255, 50)` falls in the soft band of
the aggressive thresholds (squared distance 10000, strictly between 8100
and 25600). -/
def softImage : RasterImage := ⟨1, 1, [⟨50, 255, 50, 255⟩]⟩

/-- A 2x1 image with one pure-key pixel and one pixel far from the key
color — no pixel in the soft band. -/
def hardImage : RasterImage := ⟨2, 1, [⟨0, 255, 0, 255⟩, ⟨200, 10, 200, 255⟩]⟩

/-- Sixteen UI slots with every even-indexed slot locked. -/
def wSlots : List App.StickerSlot :=
  (List.range 16).map fun i =>
    ⟨"id" ++ toString i, "old" ++ toString i, decide (i % 2 = 0)⟩

/-- Sixteen UI slots, all locked. -/
def wLockedSlots : List App.StickerSlot :=
  (List.range 16).map fun i => ⟨"id" ++ toString i, "old" ++ toString i, true⟩

/-- Sixteen fresh sticker urls. -/
def wRegen16 : List String := (List.range 16).map fun i => "new" ++ toString i

/-- Only fifteen fresh sticker urls — one short of a full sheet. -/
def wRegenShort : List String :=
  (List.range 15).map fun i => "new" ++ toString i

/-- A concrete stand-in for `processTransparentSheet`. -/
def wProcFn : String → Bool → String := fun u _ => u ++ "-p"

/-- A concrete stand-in for `splitStickerSheet` returning 16 slots. -/
def wSplitFn : String → Nat → Nat → List String := fun _ _ _ => wRegen16

/-- A concrete stand-in for `splitStickerSheet` returning only 15 slots. -/
def wSplitShortFn : String → Nat → Nat → List String :=
  fun _ _ _ => wRegenShort

/-- A concrete stand-in for `composeStickerSheet`. -/
def wComposeFn : List String → Nat → Nat → String := fun _ _ _ => "composed"

end ConcreteInputs

section Helpers

/-- Equality of `Except` results is decidable when both sides are. -/
instance {ε α : Type} [DecidableEq ε] [DecidableEq α] :
    DecidableEq (Except ε α) := fun x y =>
  match x, y with
  | .ok a, .ok b =>
      if h : a = b then .isTrue (by rw [h]) else .isFalse (by simp [h])
  | .error a, .error b =>
      if h : a = b then .isTrue (by rw [h]) else .isFalse (by simp [h])
  | .ok _, .error _ => .isFalse (by simp)
  | .error _, .ok _ => .isFalse (by simp)

/-- Indexing a mapped range with a default: inside the range it is the
function's value. -/
theorem getD_range_map {α : Type} (g : Nat → α) {n k : Nat} (hk : k < n)
    (d : α) : ((List.range n).map g).getD k d = g k := by
  simp [List.getD_eq_getElem?_getD, List.getElem?_map, List.getElem?_range hk]

/-- The head of a mapped nonempty range is the function at 0. -/
theorem headD_range_map {α : Type} (g : Nat → α) {n : Nat} (hn : 0 < n)
    (d : α) : ((List.range n).map g).headD d = g 0 := by
  rw [List.headD_eq_head?, List.head?_eq_getElem?]
  simp [List.getElem?_map, List.getElem?_range hn]

/-- A filter with a pointwise weaker predicate keeps no more elements. -/
theorem length_filter_mono {α : Type} (p q : α → Bool) (l : List α)
    (h : ∀ a ∈ l, p a = true → q a = true) :
    (l.filter p).length ≤ (l.filter q).length := by
  induction l with
  | nil => simp
  | cons a l ih =>
    have hrest : ∀ b ∈ l, p b = true → q b = true := fun b hb =>
      h b (List.mem_cons_of_mem a hb)
    have ha := h a (List.mem_cons_self a l)
    simp only [List.filter_cons]
    by_cases hp : p a = true
    · rw [if_pos hp, if_pos (ha hp)]
      simpa using ih hrest
    · rw [if_neg hp]
      split
      · exact Nat.le_trans (ih hrest) (by simp)
      · exact ih hrest

end Helpers

namespace ImageProcessor

/-- Reading a pixel of a sliced cell looks up the matching pixel of the
source sheet: cell `k` covers columns starting at `(k % columns) * cellW`
and rows starting at `(k / columns) * cellH`. -/
theorem sliceCell_getPixel (sheet : RasterImage) (L : GridLayout) (k u v : Nat)
    (hu : u < sheet.width / L.columns) (hv : v < sheet.height / L.rows) :
    (sliceCell sheet L k).getPixel u v =
      sheet.getPixel ((k % L.columns) * (sheet.width / L.columns) + u)
        ((k / L.columns) * (sheet.height / L.rows) + v) := by
  have hcw0 : 0 < sheet.width / L.columns :=
    Nat.lt_of_le_of_lt (Nat.zero_le u) hu
  dsimp only [sliceCell, RasterImage.getPixel]
  set cw := sheet.width / L.columns with hcw
  set ch := sheet.height / L.rows with hch
  have hbound : v * cw + u < cw * ch := by
    have h1 : v + 1 ≤ ch := hv
    calc v * cw + u < v * cw + cw := by omega
    _ = (v + 1) * cw := by ring
    _ ≤ ch * cw := Nat.mul_le_mul_right _ h1
    _ = cw * ch := Nat.mul_comm _ _
  rw [getD_range_map _ hbound]
  have hmod : (v * cw + u) % cw = u := by
    rw [Nat.mul_comm v cw, Nat.mul_add_mod]
    exact Nat.mod_eq_of_lt hu
  have hdiv : (v * cw + u) / cw = v := by
    rw [Nat.mul_comm v cw, Nat.mul_add_div hcw0, Nat.div_eq_of_lt hu]
    omega
  rw [hmod, hdiv]

/-- Two raster images with the same fields are equal. -/
theorem RasterImage.ext' (a b : RasterImage) (h1 : a.width = b.width)
    (h2 : a.height = b.height) (h3 : a.data = b.data) : a = b := by
  cases a; cases b; cases h1; cases h2; cases h3; rfl

/-- C1: for every well-formed sheet whose width is evenly divisible by
`L.columns` and whose height is evenly divisible by `L.rows` (both
positive), `slice` succeeds, and composing the sliced sequence unchanged
with the same layout succeeds and is pixel-for-pixel identical to the
sheet — `GridComposer`'s row-major placement inverts `GridSlicer`'s
partitioning exactly. -/
theorem slice_compose_roundtrip (sheet : RasterImage) (L : GridLayout)
    (hc : 0 < L.columns) (hr : 0 < L.rows)
    (hW : sheet.width % L.columns = 0) (hH : sheet.height % L.rows = 0)
    (hwf : sheet.wellFormed) :
    slice sheet L = .ok (sliceResult sheet L) ∧
      compose ((sliceResult sheet L).map (·.image)) L = .ok sheet := by
  set cw := sheet.width / L.columns with hcwdef
  set ch := sheet.height / L.rows with hchdef
  have hWe : cw * L.columns = sheet.width :=
    Nat.div_mul_cancel (Nat.dvd_of_mod_eq_zero hW)
  have hHe : ch * L.rows = sheet.height :=
    Nat.div_mul_cancel (Nat.dvd_of_mod_eq_zero hH)
  have hn : 0 < L.rows * L.columns := Nat.mul_pos hr hc
  have hslice : slice sheet L = .ok (sliceResult sheet L) := by
    unfold slice
    simp [hW, hH]
  refine ⟨hslice, ?_⟩
  have himgs : (sliceResult sheet L).map (·.image)
      = (List.range (L.rows * L.columns)).map (sliceCell sheet L) := by
    unfold sliceResult
    rw [List.map_map]
    rfl
  rw [himgs]
  set images := (List.range (L.rows * L.columns)).map (sliceCell sheet L)
    with himagesdef
  have hhead : images.headD default = sliceCell sheet L 0 :=
    headD_range_map _ hn _
  have hheadw : (images.headD default).width = cw := by rw [hhead]; rfl
  have hheadh : (images.headD default).height = ch := by rw [hhead]; rfl
  have hlen : images.length = L.columns * L.rows := by
    rw [himagesdef]; simp [Nat.mul_comm]
  have hunif : uniformDims images = true := by
    unfold uniformDims
    rw [List.all_eq_true]
    intro x hx
    rw [himagesdef] at hx
    obtain ⟨k, hk, rfl⟩ := List.mem_map.1 hx
    rw [hheadw, hheadh]
    simp [sliceCell]
  have hcomp : compose images L = .ok (composedImage images L) := by
    unfold compose
    simp [hlen, hunif]
  rw [hcomp]
  congr 1
  apply RasterImage.ext'
  · dsimp only [composedImage]
    rw [hheadw]
    exact hWe
  · dsimp only [composedImage]
    rw [hheadh]
    exact hHe
  · dsimp only [composedImage]
    rw [hheadw, hheadh, hWe, hHe]
    apply List.ext_getElem?
    intro idx
    by_cases hidx : idx < sheet.width * sheet.height
    · rw [List.getElem?_map, List.getElem?_range hidx, Option.map_some']
      have hidx' : idx < sheet.data.length := by rw [hwf]; exact hidx
      rw [List.getElem?_eq_getElem hidx']
      congr 1
      have hW0 : 0 < sheet.width := by
        rcases Nat.eq_zero_or_pos sheet.width with h0 | h0
        · rw [h0] at hidx; omega
        · exact h0
      have hH0 : 0 < sheet.height := by
        rcases Nat.eq_zero_or_pos sheet.height with h0 | h0
        · rw [h0] at hidx; omega
        · exact h0
      have hcw0 : 0 < cw := by
        rcases Nat.eq_zero_or_pos cw with h0 | h0
        · rw [h0] at hWe; omega
        · exact h0
      have hch0 : 0 < ch := by
        rcases Nat.eq_zero_or_pos ch with h0 | h0
        · rw [h0] at hHe; omega
        · exact h0
      set x := idx % sheet.width with hxdef
      set y := idx / sheet.width with hydef
      have hx : x < sheet.width := Nat.mod_lt _ hW0
      have hy : y < sheet.height := by
        rw [hydef]
        rw [Nat.div_lt_iff_lt_mul hW0]
        rw [Nat.mul_comm]
        exact hidx
      have hcol : x / cw < L.columns := by
        rw [Nat.div_lt_iff_lt_mul hcw0]
        rw [Nat.mul_comm]
        rw [hWe]
        exact hx
      have hrow : y / ch < L.rows := by
        rw [Nat.div_lt_iff_lt_mul hch0]
        rw [Nat.mul_comm]
        rw [hHe]
        exact hy
      have hkb : (y / ch) * L.columns + x / cw < L.rows * L.columns := by
        have h1 : y / ch + 1 ≤ L.rows := hrow
        calc (y / ch) * L.columns + x / cw
            < (y / ch) * L.columns + L.columns := by omega
          _ = (y / ch + 1) * L.columns := by ring
          _ ≤ L.rows * L.columns := Nat.mul_le_mul_right _ h1
      rw [himagesdef, getD_range_map _ hkb]
      rw [sliceCell_getPixel sheet L _ _ _ (Nat.mod_lt _ hcw0)
        (Nat.mod_lt _ hch0)]
      have hkmod : ((y / ch) * L.columns + x / cw) % L.columns = x / cw := by
        rw [Nat.mul_comm (y / ch) L.columns, Nat.mul_add_mod]
        exact Nat.mod_eq_of_lt hcol
      have hkdiv : ((y / ch) * L.columns + x / cw) / L.columns = y / ch := by
        rw [Nat.mul_comm (y / ch) L.columns, Nat.mul_add_div hc,
          Nat.div_eq_of_lt hcol]
        omega
      rw [hkmod, hkdiv]
      have hxx : x / cw * cw + x % cw = x := by
        rw [Nat.mul_comm]
        exact Nat.div_add_mod x cw
      have hyy : y / ch * ch + y % ch = y := by
        rw [Nat.mul_comm]
        exact Nat.div_add_mod y ch
      rw [← hcwdef, ← hchdef, hxx, hyy]
      unfold RasterImage.getPixel
      have hyx : y * sheet.width + x = idx := by
        rw [Nat.mul_comm]
        exact Nat.div_add_mod idx sheet.width
      rw [hyx]
      rw [List.getD_eq_getElem?_getD, List.getElem?_eq_getElem hidx']
      rfl
    · rw [List.getElem?_map]
      rw [List.getElem?_eq_none (by simpa using Nat.le_of_not_lt hidx)]
      rw [List.getElem?_eq_none (by rw [hwf]; exact Nat.le_of_not_lt hidx)]
      rfl

/-- C1 witness: the round trip at the concrete 2x2 sheet and 2x2 layout. -/
theorem slice_compose_roundtrip_witness :
    slice wSheet wLayout = .ok (sliceResult wSheet wLayout) ∧
      compose ((sliceResult wSheet wLayout).map (·.image)) wLayout
        = .ok wSheet :=
  slice_compose_roundtrip wSheet wLayout (by decide) (by decide) (by decide)
    (by decide) (by decide)

/-- C4: `slice` fails with `DimensionError` exactly when the width is not
evenly divisible by `layout.columns` or the height is not evenly divisible
by `layout.rows`; on success every produced cell is a full, well-formed
cell of size `(width / columns, height / rows)` in its own image. -/
theorem slice_dimension_iff (image : RasterImage) (layout : GridLayout) :
    (slice image layout = .error .dimensionError ↔
      ¬(image.width % layout.columns = 0 ∧
        image.height % layout.rows = 0)) ∧
    ∀ slots, slice image layout = .ok slots →
      ∀ s ∈ slots, s.image.width = image.width / layout.columns ∧
        s.image.height = image.height / layout.rows ∧ s.image.wellFormed := by
  constructor
  · unfold slice
    split
    case isTrue h =>
      simp only [iff_true_intro rfl, true_iff]
      simp at h
      tauto
    case isFalse h =>
      simp at h
      constructor
      · intro hcontra
        cases hcontra
      · intro hcontra
        exact absurd ⟨h.1, h.2⟩ hcontra
  · intro slots hok s hs
    unfold slice at hok
    split at hok
    · cases hok
    · injection hok with hok
      subst hok
      unfold sliceResult at hs
      obtain ⟨k, hk, rfl⟩ := List.mem_map.1 hs
      refine ⟨rfl, rfl, ?_⟩
      simp [sliceCell, RasterImage.wellFormed]

/-- C5: `compose` fails with `ShapeMismatchError` exactly when the slot
count differs from `columns * rows` or the slots do not all share one
width and height; being a pure function, on failure it produces no output
and leaves its inputs unchanged. -/
theorem compose_shape_mismatch_iff (slots : List RasterImage)
    (layout : GridLayout) :
    compose slots layout = .error .shapeMismatchError ↔
      (slots.length ≠ layout.columns * layout.rows ∨
        uniformDims slots = false) := by
  unfold compose
  split
  case isTrue h =>
    simp at h
    simp [h]
  case isFalse h =>
    simp at h
    split
    case isTrue h2 =>
      simp at h2
      simp [h, h2]
    case isFalse h2 =>
      simp at h2
      simp [h, h2]

/-- The inner tolerance threshold is strictly below the outer one for both
aggressiveness settings. -/
theorem innerThreshold2_lt_outerThreshold2 (a : Bool) :
    innerThreshold2 a < outerThreshold2 a := by cases a <;> decide

/-- The chroma distance ignores the alpha channel. -/
theorem dist2_set_a (p : Pixel) (x : Nat) :
    dist2 { p with a := x } = dist2 p := rfl

/-- A pixel classified outside the soft band keeps its color, so a second
classification reproduces the first. -/
theorem extractPixel_hard (a : Bool) (p : Pixel)
    (h : dist2 p ≤ innerThreshold2 a ∨ outerThreshold2 a ≤ dist2 p) :
    extractPixel a (extractPixel a p) = extractPixel a p := by
  have hlt := innerThreshold2_lt_outerThreshold2 a
  rcases h with h | h
  · have h1 : extractPixel a p = { p with a := 0 } := by
      unfold extractPixel
      rw [if_pos h]
    rw [h1]
    unfold extractPixel
    rw [dist2_set_a, if_pos h]
  · have h2 : extractPixel a p = { p with a := 255 } := by
      unfold extractPixel
      rw [if_neg (by omega), if_pos h]
    rw [h2]
    unfold extractPixel
    rw [dist2_set_a, if_neg (by omega), if_pos h]

/-- C6 counterexample: extraction is not idempotent on every input — on
the 1x1 image whose pixel lies in the soft band, spill suppression
desaturates the green channel, the color distance changes, and a second
aggressive extraction yields a different alpha. -/
theorem extract_not_idempotent_cex :
    extract (extract softImage true) true ≠ extract softImage true := by
  decide

/-- C6 (amended): extraction is idempotent on every image none of whose
pixels falls strictly inside the soft band — in particular on inputs with
no key color present — and it never fails: when no pixel's distance is
below the outer threshold it returns a fully opaque image with every color
unchanged. -/
theorem extract_idempotent_amended (img : RasterImage) (a : Bool)
    (h : ∀ p ∈ img.data, dist2 p ≤ innerThreshold2 a ∨
      outerThreshold2 a ≤ dist2 p) :
    extract (extract img a) a = extract img a ∧
    ((∀ p ∈ img.data, outerThreshold2 a ≤ dist2 p) →
      extract img a =
        { img with data := img.data.map fun p => { p with a := 255 } }) := by
  constructor
  · unfold extract
    simp only [List.map_map]
    congr 1
    apply List.map_congr_left
    intro p hp
    exact extractPixel_hard a p (h p hp)
  · intro hall
    unfold extract
    congr 1
    apply List.map_congr_left
    intro p hp
    have hlt := innerThreshold2_lt_outerThreshold2 a
    unfold extractPixel
    rw [if_neg (by have := hall p hp; omega), if_pos (hall p hp)]

/-- C6 witness: the amended idempotence and the fully-opaque no-op at the
concrete two-pixel image with no soft-band pixel. -/
theorem extract_idempotent_amended_witness :
    extract (extract hardImage true) true = extract hardImage true ∧
    ((∀ p ∈ hardImage.data, outerThreshold2 true ≤ dist2 p) →
      extract hardImage true =
        { hardImage with
            data := hardImage.data.map fun p => { p with a := 255 } }) :=
  extract_idempotent_amended hardImage true (by decide)

/-- A pixel classified as background by the conservative thresholds is
also classified as background by the aggressive ones. -/
theorem isBackground_mono (p : Pixel) (h : isBackground false p = true) :
    isBackground true p = true := by
  unfold isBackground extractPixel innerThreshold2 outerThreshold2 at h ⊢
  simp only [Bool.false_eq_true, if_false, if_true] at h ⊢
  set d := dist2 p with hd
  rcases le_or_lt d 3600 with h1 | h1
  · rw [if_pos (by omega : d ≤ 8100)]
    simp
  · rcases le_or_lt 14400 d with h2 | h2
    · rw [if_neg (by omega), if_pos h2] at h
      simp at h
    · rw [if_neg (by omega), if_neg (by omega)] at h
      simp at h
      have hd' : d ≤ 3642 := by omega
      rw [if_pos (by omega : d ≤ 8100)]
      simp

/-- C7: on the same input, `aggressive = true` classifies at least as many
pixels as background as `aggressive = false` does, both as a count and as
a fraction of the pixel total. -/
theorem extract_aggressive_monotone (img : RasterImage) :
    backgroundCount img false ≤ backgroundCount img true ∧
    (backgroundCount img false : ℚ) / (img.data.length : ℚ) ≤
      (backgroundCount img true : ℚ) / (img.data.length : ℚ) := by
  have hcount : backgroundCount img false ≤ backgroundCount img true := by
    unfold backgroundCount
    exact length_filter_mono _ _ _ fun p _ => isBackground_mono p
  refine ⟨hcount, ?_⟩
  rcases Nat.eq_zero_or_pos img.data.length with h0 | h0
  · rw [h0]
    norm_num
  · have hpos : (0 : ℚ) < (img.data.length : ℚ) := by exact_mod_cast h0
    exact div_le_div_of_nonneg_right (by exact_mod_cast hcount)
      (le_of_lt hpos)

end ImageProcessor

section AppTheorems

/-- C2: with a prior full set of `TOTAL_STICKERS` slots (and at least one
unlocked), a successful run of `generateSheet` updates the slots to the
merged sequence, which has exactly `TOTAL_STICKERS` entries, passes it to
the composer in index order with the 4x4 layout, and at every index keeps
the retained prior slot when it is locked and takes the freshly sliced url
at the same index otherwise. -/
theorem generateSheet_regeneration_merge
    (base64Image : String) (stickerSlots : List App.StickerSlot) (url : String)
    (procFn : String → Bool → String)
    (splitFn : String → Nat → Nat → List String)
    (composeFn : List String → Nat → Nat → String) (now : Nat)
    (regen : List String)
    (hbase : base64Image ≠ "")
    (hlen : stickerSlots.length = App.TOTAL_STICKERS)
    (hunlocked : (stickerSlots.filter fun slot => !slot.locked).length ≠ 0)
    (hsplit : splitFn (procFn url true) App.STICKER_COLUMNS App.STICKER_ROWS
      = regen)
    (hregen : App.TOTAL_STICKERS ≤ regen.length) :
    (App.generateSheet true base64Image stickerSlots (.ok url) procFn splitFn
        composeFn now).newSlots
      = some (App.mergeSlots now true stickerSlots regen) ∧
    (App.mergeSlots now true stickerSlots regen).length = App.TOTAL_STICKERS ∧
    (App.generateSheet true base64Image stickerSlots (.ok url) procFn splitFn
        composeFn now).composeCall
      = some ((App.mergeSlots now true stickerSlots regen).map (·.url),
          App.STICKER_COLUMNS, App.STICKER_ROWS) ∧
    ∀ i, i < App.TOTAL_STICKERS →
      (App.mergeSlots now true stickerSlots regen).getD i default =
        (if (stickerSlots.getD i default).locked then
          stickerSlots.getD i default
         else { stickerSlots.getD i default with
                  url := regen.getD i ""
                  id := App.mkId now i }) := by
  have hcr : (stickerSlots.length == App.TOTAL_STICKERS) = true := by
    simp [hlen]
  have hun : ((stickerSlots.filter fun slot => !slot.locked).length == 0)
      = false := by simp [hunlocked]
  have hout : App.generateSheet true base64Image stickerSlots (.ok url) procFn
      splitFn composeFn now =
      { error := none, enteredLoading := true, serviceCalls := 1
        extractCall := some (url, true)
        splitCall := some (procFn url true)
        composeCall := some ((App.mergeSlots now true stickerSlots regen).map
          (·.url), App.STICKER_COLUMNS, App.STICKER_ROWS)
        newSlots := some (App.mergeSlots now true stickerSlots regen)
        newSheetUrl := some (composeFn ((App.mergeSlots now true stickerSlots
          regen).map (·.url)) App.STICKER_COLUMNS App.STICKER_ROWS)
        hasGeneratedSet := true } := by
    unfold App.generateSheet
    rw [if_neg (by simp)]
    rw [if_neg hbase]
    simp only [hcr, hun, hsplit, if_true, Bool.true_and, Bool.and_false,
      Bool.false_eq_true, if_false]
    rw [if_neg (Nat.not_lt.2 hregen)]
  refine ⟨by rw [hout], ?_, by rw [hout], ?_⟩
  · unfold App.mergeSlots
    rw [if_pos rfl]
    rw [List.length_mapIdx]
    exact hlen
  · intro i hi
    have hi' : i < stickerSlots.length := by omega
    unfold App.mergeSlots
    rw [if_pos rfl]
    simp only [List.getD_eq_getElem?_getD, List.getElem?_mapIdx,
      List.getElem?_eq_getElem hi', Option.map_some', Option.getD_some]

/-- C2 witness: the merge at a concrete prior set with every even slot
locked and sixteen fresh urls. -/
theorem generateSheet_regeneration_merge_witness :
    (App.generateSheet true "img" wSlots (.ok "sheet") wProcFn wSplitFn
        wComposeFn 7).newSlots
      = some (App.mergeSlots 7 true wSlots wRegen16) :=
  (generateSheet_regeneration_merge "img" wSlots "sheet" wProcFn wSplitFn
    wComposeFn 7 wRegen16 (by decide) (by decide) (by decide) rfl
    (by decide)).1

/-- C3: when the slicing step returns fewer than `TOTAL_STICKERS` slots,
`generateSheet` ends with exactly the incomplete-sheet error message, the
slots and the composed sheet are not updated, the composer is never
called, and the generation service was invoked exactly once (no internal
retry). -/
theorem generateSheet_incomplete_slice_rejected
    (base64Image : String) (stickerSlots : List App.StickerSlot) (url : String)
    (procFn : String → Bool → String)
    (splitFn : String → Nat → Nat → List String)
    (composeFn : List String → Nat → Nat → String) (now : Nat)
    (hbase : base64Image ≠ "")
    (hguard : ¬(stickerSlots.length = App.TOTAL_STICKERS ∧
      (stickerSlots.filter fun slot => !slot.locked).length = 0))
    (hshort : (splitFn (procFn url true) App.STICKER_COLUMNS
      App.STICKER_ROWS).length < App.TOTAL_STICKERS) :
    App.generateSheet true base64Image stickerSlots (.ok url) procFn splitFn
        composeFn now =
      { error := some App.incompleteMsg, enteredLoading := true
        serviceCalls := 1, extractCall := some (url, true)
        splitCall := some (procFn url true), composeCall := none
        newSlots := none, newSheetUrl := none, hasGeneratedSet := false } := by
  unfold App.generateSheet
  rw [if_neg (by simp)]
  rw [if_neg hbase]
  have hg : ((stickerSlots.length == App.TOTAL_STICKERS) &&
      ((if (stickerSlots.length == App.TOTAL_STICKERS) = true then
        (stickerSlots.filter fun slot => !slot.locked).length
       else App.TOTAL_STICKERS) == 0)) = false := by
    by_cases hl : stickerSlots.length = App.TOTAL_STICKERS
    · have hf : (stickerSlots.filter fun slot => !slot.locked).length ≠ 0 :=
        fun hc => hguard ⟨hl, hc⟩
      simp [hl, hf]
    · simp [hl]
  simp only [hg, Bool.false_eq_true, if_false]
  rw [if_pos hshort]

/-- C3 witness: the rejection at a concrete prior set when the splitter
returns only fifteen slots. -/
theorem generateSheet_incomplete_slice_rejected_witness :
    App.generateSheet true "img" wSlots (.ok "sheet") wProcFn wSplitShortFn
        wComposeFn 7 =
      { error := some App.incompleteMsg, enteredLoading := true
        serviceCalls := 1, extractCall := some ("sheet", true)
        splitCall := some (wProcFn "sheet" true), composeCall := none
        newSlots := none, newSheetUrl := none, hasGeneratedSet := false } :=
  generateSheet_incomplete_slice_rejected "img" wSlots "sheet" wProcFn
    wSplitShortFn wComposeFn 7 (by decide) (by decide) (by decide)

/-- C10: with a full set of `TOTAL_STICKERS` slots all locked,
`generateSheet` is rejected before any work: the all-locked error message
is set, loading is never entered, the generation service is never called,
no slot or sheet state changes — whatever the service would have
returned — and the generate button is disabled in that state. -/
theorem generateSheet_all_locked_rejected
    (base64Image : String) (stickerSlots : List App.StickerSlot)
    (serviceResult : Except String String)
    (procFn : String → Bool → String)
    (splitFn : String → Nat → Nat → List String)
    (composeFn : List String → Nat → Nat → String) (now : Nat)
    (hbase : base64Image ≠ "")
    (hlen : stickerSlots.length = App.TOTAL_STICKERS)
    (hall : ∀ s ∈ stickerSlots, s.locked = true) :
    App.generateSheet true base64Image stickerSlots serviceResult procFn
        splitFn composeFn now = App.rejected App.lockedAllMsg ∧
    App.generateButtonDisabled false base64Image true true stickerSlots
      = true := by
  have hfilter : (stickerSlots.filter fun slot => !slot.locked) = [] :=
    List.filter_eq_nil_iff.2 fun s hs => by simp [hall s hs]
  constructor
  · unfold App.generateSheet
    rw [if_neg (by simp)]
    rw [if_neg hbase]
    have hg : ((stickerSlots.length == App.TOTAL_STICKERS) &&
        ((if (stickerSlots.length == App.TOTAL_STICKERS) = true then
          (stickerSlots.filter fun slot => !slot.locked).length
         else App.TOTAL_STICKERS) == 0)) = true := by
      simp [hlen, hfilter]
    simp only [hg, if_true]
  · unfold App.generateButtonDisabled
    have hlocked : (stickerSlots.filter fun slot => slot.locked)
        = stickerSlots := List.filter_eq_self.2 fun s hs => hall s hs
    simp [hlocked, hlen]

/-- C10 witness: the rejection and the disabled button at a concrete fully
locked set of sixteen slots. -/
theorem generateSheet_all_locked_rejected_witness :
    App.generateSheet true "img" wLockedSlots (.ok "sheet") wProcFn wSplitFn
        wComposeFn 7 = App.rejected App.lockedAllMsg ∧
    App.generateButtonDisabled false "img" true true wLockedSlots = true :=
  generateSheet_all_locked_rejected "img" wLockedSlots (.ok "sheet") wProcFn
    wSplitFn wComposeFn 7 (by decide) (by decide) (by decide)

/-- C8: `generateSheet` never invokes the chroma-key extraction with
`aggressive = false`; and whenever the generation service succeeds and
loading was entered, the extraction is invoked on the generated sheet with
`aggressive = true`, the slicer is invoked on the extraction's output, and
the composer — when reached — is invoked on the merge of the slicer's
output, in that fixed stage order. -/
theorem generateSheet_pipeline (isOnline : Bool) (base64Image : String)
    (stickerSlots : List App.StickerSlot)
    (serviceResult : Except String String)
    (procFn : String → Bool → String)
    (splitFn : String → Nat → Nat → List String)
    (composeFn : List String → Nat → Nat → String) (now : Nat) :
    (∀ u a, (App.generateSheet isOnline base64Image stickerSlots serviceResult
        procFn splitFn composeFn now).extractCall = some (u, a) → a = true) ∧
    (∀ url, serviceResult = .ok url →
      (App.generateSheet isOnline base64Image stickerSlots serviceResult
        procFn splitFn composeFn now).enteredLoading = true →
      (App.generateSheet isOnline base64Image stickerSlots serviceResult
          procFn splitFn composeFn now).extractCall = some (url, true) ∧
      (App.generateSheet isOnline base64Image stickerSlots serviceResult
          procFn splitFn composeFn now).splitCall = some (procFn url true) ∧
      ((App.generateSheet isOnline base64Image stickerSlots serviceResult
          procFn splitFn composeFn now).composeCall = none ∨
        (App.generateSheet isOnline base64Image stickerSlots serviceResult
            procFn splitFn composeFn now).composeCall =
          some ((App.mergeSlots now
              (stickerSlots.length == App.TOTAL_STICKERS) stickerSlots
              (splitFn (procFn url true) App.STICKER_COLUMNS
                App.STICKER_ROWS)).map (·.url),
            App.STICKER_COLUMNS, App.STICKER_ROWS))) := by
  unfold App.generateSheet
  by_cases ho : isOnline = true
  case neg =>
    rw [if_pos (by simp [ho])]
    simp [App.rejected]
  case pos =>
    rw [if_neg (by simp [ho])]
    by_cases hb : base64Image = ""
    · rw [if_pos hb]
      simp [App.rejected]
    · rw [if_neg hb]
      by_cases hg : ((stickerSlots.length == App.TOTAL_STICKERS) &&
          ((if (stickerSlots.length == App.TOTAL_STICKERS) = true then
            (stickerSlots.filter fun slot => !slot.locked).length
           else App.TOTAL_STICKERS) == 0)) = true
      · rw [if_pos hg]
        simp [App.rejected]
      · rw [if_neg hg]
        cases serviceResult with
        | error e => simp
        | ok url =>
          dsimp only
          by_cases hshort : (splitFn (procFn url true) App.STICKER_COLUMNS
              App.STICKER_ROWS).length < App.TOTAL_STICKERS
          · rw [if_pos hshort]
            constructor
            · intro u a ha
              simp at ha
              exact ha.2
            · intro url' hurl _
              injection hurl with hurl
              subst hurl
              simp
          · rw [if_neg hshort]
            constructor
            · intro u a ha
              simp at ha
              exact ha.2
            · intro url' hurl _
              injection hurl with hurl
              subst hurl
              simp

/-- C9: for every theme and every outcome of the caption-model call,
`generateStickerCaptions` resolves with exactly 16 non-empty strings, and
a thrown call returns the full default list rather than propagating the
error. -/
theorem generateStickerCaptions_sixteen_nonempty (theme : String)
    (outcome : GeminiService.CaptionOutcome) :
    (GeminiService.generateStickerCaptions theme outcome).length = 16 ∧
    (∀ s ∈ GeminiService.generateStickerCaptions theme outcome, s ≠ "") ∧
    GeminiService.generateStickerCaptions theme .apiThrown
      = GeminiService.defaultCaptions := by
  have hdef : GeminiService.defaultCaptions.length = 16 ∧
      ∀ s ∈ GeminiService.defaultCaptions, s ≠ "" := by
    constructor
    · rfl
    · decide
  refine ?_
  cases outcome with
  | apiThrown => exact ⟨hdef.1, hdef.2, rfl⟩
  | emptyText => exact ⟨hdef.1, hdef.2, rfl⟩
  | invalidJson => exact ⟨hdef.1, hdef.2, rfl⟩
  | jsonNonArray => exact ⟨hdef.1, hdef.2, rfl⟩
  | jsonArray items =>
    refine ⟨?_, ?_, rfl⟩ <;>
      · unfold GeminiService.generateStickerCaptions
        dsimp only
        set sanitized :=
          ((((items.filterMap fun item =>
                match item with
                | .str s => some s
                | .other => none).map fun item => item.trim).filter
              fun item => item.length > 0).take 16) with hsan
        have hle : sanitized.length ≤ 16 := by
          rw [hsan]
          exact List.length_take_le _ _
        have hmem : ∀ s ∈ sanitized, s ≠ "" := by
          intro s hs
          rw [hsan] at hs
          have hs' := List.mem_of_mem_take hs
          have := (List.mem_filter.1 hs').2
          simp at this
          intro hcontra
          rw [hcontra] at this
          simp at this
        split
        case isTrue h => first
          | exact h
          | exact hmem
        case isFalse h => first
          | (rw [List.length_append, List.length_drop, hdef.1]; omega)
          | (intro s hs
             rcases List.mem_append.1 hs with h1 | h1
             · exact hmem s h1
             · exact hdef.2 s (List.mem_of_mem_drop h1))

end AppTheorems
